import Mathlib

/-!
Shallow embedding of the otel-relay broadcast daemon and proxy front ends
(github.com/jimschubert/otel-relay), used to check the natural-language
specification against the code.

The embedding follows the Go sources:
  * `internal/grpcserver/server.go`  — Server, Emit, Stream, broadcastLoop, GetStats
  * `internal/grpcserver/stats.go`   — DaemonStats, EnsureServerRunning
  * `internal/proxy/proxy.go`        — HTTPProxy.Start
  * the OTLP binary-RPC proxy       — OTLPProxy.Start and the three Export handlers
  * `inspector/inspector.go`         — Inspector.InspectHttpRequest

Go channels are modelled as bounded FIFO lists, atomics as plain counters
(no claim here depends on 64-bit wraparound), and the concurrent loops as
explicit interleaved operations on a world state.
-/

set_option maxRecDepth 10000

namespace OtelRelay

/-- Telemetry kind, mirroring proto enum `TelemetryType`
(`TELEMETRY_TYPE_UNSPECIFIED` is the zero value; `server.go` switches only
on the three concrete kinds). -/
inductive TelemetryType where
  | unspecified
  | trace
  | metric
  | log
deriving DecidableEq, Repr

/-- `TelemetryEvent{ type, data }` from the inspector proto: a kind plus the
serialized payload bytes (bytes modelled as naturals). -/
structure TelemetryEvent where
  type_ : TelemetryType
  data : List Nat
deriving DecidableEq, Repr

/-- `DaemonStats` from `stats.go`: observed counters by kind, observed bytes,
and the two activity gauges. `startTime` is a timestamp in seconds. -/
structure DaemonStats where
  tracesObserved : Nat := 0
  metricsObserved : Nat := 0
  logsObserved : Nat := 0
  bytesObserved : Nat := 0
  startTime : Nat := 0
  activeReaders : Nat := 0
  activeWriters : Int := 0
deriving DecidableEq, Repr

/-- Capacity of the central intake channel: `make(chan *TelemetryEvent, 1000)`
in `NewServer`. -/
def broadcastCap : Nat := 1000

/-- Capacity of each consumer's queue: `make(chan *TelemetryEvent, 100)`
in `Server.Stream`. -/
def streamCap : Nat := 100

/-- Non-blocking bounded enqueue: Go's `select { case ch <- ev: default: }`
on a buffered channel with no waiting receiver succeeds exactly when the
buffer holds fewer than `cap` elements; otherwise the event is dropped. -/
def tryPush (cap : Nat) (q : List TelemetryEvent) (ev : TelemetryEvent) : List TelemetryEvent :=
  if q.length < cap then q ++ [ev] else q

/-- Result of an `Emit` call: the empty success response, or `ctx.Err()`. -/
inductive EmitOutcome where
  | ok
  | ctxErr
deriving DecidableEq, Repr

/-- Micro-steps of `Server.Emit`, in source order, used to talk about the
order of the channel send relative to the stats increments. -/
inductive EmitStep where
  | enqueue (ev : TelemetryEvent)
  | bumpKind (t : TelemetryType)
  | bumpBytes (n : Nat)
  | respond (o : EmitOutcome)
deriving DecidableEq, Repr

/-- The `switch event.Type` in `Emit`: one kind-counter increment for
trace/metric/log, none for the unspecified kind (no `default` branch). -/
def kindSteps : TelemetryType → List EmitStep
  | .trace => [.bumpKind .trace]
  | .metric => [.bumpKind .metric]
  | .log => [.bumpKind .log]
  | .unspecified => []

/-- Server state relevant to Emit/broadcast: the central intake queue,
the registered consumer queues (in registration order, keyed by an id
standing for the stream handle), and the stats. -/
structure ServerState where
  intake : List TelemetryEvent
  streams : List (Nat × List TelemetryEvent)
  stats : DaemonStats
deriving DecidableEq, Repr

/-- The body of `Server.Emit` as a sequence of micro-steps. The three-way
`select`: the send case is ready iff the intake buffer is below capacity;
when both the send and the `ctx.Done()` cases are ready Go picks one at
random (`preferSend` resolves that choice); the `default` branch runs only
when neither is ready. On a successful send the case body then increments
the kind counter and the byte counter, in that order, and responds with the
empty success response. -/
def emitSteps (st : ServerState) (ev : TelemetryEvent) (ctxDone preferSend : Bool) :
    List EmitStep :=
  let canSend := st.intake.length < broadcastCap
  if canSend ∧ (ctxDone = false ∨ preferSend = true) then
    .enqueue ev :: (kindSteps ev.type_ ++ [.bumpBytes ev.data.length, .respond .ok])
  else if ctxDone then [.respond .ctxErr]
  else [.respond .ok]

/-- Effect of one Emit micro-step on the server state. -/
def applyStep (st : ServerState) : EmitStep → ServerState
  | .enqueue ev => { st with intake := st.intake ++ [ev] }
  | .bumpKind .trace =>
      { st with stats := { st.stats with tracesObserved := st.stats.tracesObserved + 1 } }
  | .bumpKind .metric =>
      { st with stats := { st.stats with metricsObserved := st.stats.metricsObserved + 1 } }
  | .bumpKind .log =>
      { st with stats := { st.stats with logsObserved := st.stats.logsObserved + 1 } }
  | .bumpKind .unspecified => st
  | .bumpBytes n =>
      { st with stats := { st.stats with bytesObserved := st.stats.bytesObserved + n } }
  | .respond _ => st

/-- The outcome reported by the final `respond` micro-step. -/
def stepsOutcome (l : List EmitStep) : EmitOutcome :=
  l.foldl (fun acc s => match s with | .respond o => o | _ => acc) .ok

/-- `Server.Emit` as a state transformer plus its returned outcome.
(`activeWriters` is incremented on entry and decremented by `defer`, so it
is unchanged in the post-state.) -/
def emit (st : ServerState) (ev : TelemetryEvent) (ctxDone preferSend : Bool) :
    ServerState × EmitOutcome :=
  ((emitSteps st ev ctxDone preferSend).foldl applyStep st,
   stepsOutcome (emitSteps st ev ctxDone preferSend))

/-- One fan-out pass of `broadcastLoop` over the consumer set: for each
consumer, a non-blocking send onto its own queue (capacity `streamCap`),
dropping for that consumer alone when its queue is full. -/
def fanOut (ev : TelemetryEvent) (streams : List (Nat × List TelemetryEvent)) :
    List (Nat × List TelemetryEvent) :=
  streams.map (fun c => (c.1, tryPush streamCap c.2 ev))

/-- Update the first association-list entry with key `k` by `f`. -/
def updateAssoc (k : Nat) (f : List TelemetryEvent → List TelemetryEvent) :
    List (Nat × List TelemetryEvent) → List (Nat × List TelemetryEvent)
  | [] => []
  | c :: rest =>
      if c.1 = k then (c.1, f c.2) :: rest else c :: updateAssoc k f rest

/-- World state: the server plus, for each consumer id, the events its
`Stream` call has already written to the client. -/
structure World where
  server : ServerState
  delivered : List (Nat × List TelemetryEvent)
deriving DecidableEq, Repr

/-- Interleaved operations of the concurrent loops in `server.go`:
a producer's `Emit`, consumer (de)registration at the edges of `Stream`,
one iteration of `broadcastLoop` (`deliver`), and one iteration of a
consumer's send loop, popping its queue head onto the wire (`drain`). -/
inductive Op where
  | emit (ev : TelemetryEvent) (ctxDone preferSend : Bool)
  | register (id : Nat)
  | deregister (id : Nat)
  | deliver
  | drain (id : Nat)
deriving DecidableEq, Repr

/-- Effect of one operation on the world. `register`/`deregister` also
update the `activeReaders` gauge with `Store(len(s.streams))`, as in
`Server.Stream`'s prologue and deferred epilogue. -/
def stepOp (w : World) : Op → World
  | .emit ev ctxDone preferSend =>
      { w with server := (emit w.server ev ctxDone preferSend).1 }
  | .register id =>
      let streams := w.server.streams ++ [(id, [])]
      { server := { w.server with
          streams := streams
          stats := { w.server.stats with activeReaders := streams.length } }
        delivered :=
          if (w.delivered.find? (fun c => c.1 = id)).isSome then w.delivered
          else w.delivered ++ [(id, [])] }
  | .deregister id =>
      let streams := w.server.streams.filter (fun c => ¬ c.1 = id)
      { w with server := { w.server with
          streams := streams
          stats := { w.server.stats with activeReaders := streams.length } } }
  | .deliver =>
      match w.server.intake with
      | [] => w
      | ev :: rest =>
          { w with server := { w.server with
              intake := rest
              streams := fanOut ev w.server.streams } }
  | .drain id =>
      match (w.server.streams.find? (fun c => c.1 = id)).map (·.2) with
      | some (ev :: _) =>
          { server := { w.server with
              streams := updateAssoc id (fun q => q.tail) w.server.streams }
            delivered := updateAssoc id (fun d => d ++ [ev]) w.delivered }
      | _ => w

/-- Fold a schedule of operations over the world. -/
def runOps (w : World) : List Op → World
  | [] => w
  | op :: rest => runOps (stepOp w op) rest

/-- The freshly constructed server (`NewServer`): empty intake, no
consumers, zero stats. -/
def world0 : World :=
  { server := { intake := [], streams := [], stats := {} }, delivered := [] }

/-- Queue currently held by consumer `id` (empty if unregistered). -/
def queueOf (w : World) (id : Nat) : List TelemetryEvent :=
  (((w.server.streams.find? (fun c => c.1 = id)).map (·.2)).getD [])

/-- Events already delivered to consumer `id`'s client. -/
def deliveredTo (w : World) (id : Nat) : List TelemetryEvent :=
  (((w.delivered.find? (fun c => c.1 = id)).map (·.2)).getD [])

/-- Whether consumer `id` is currently registered. -/
def registered (w : World) (id : Nat) : Bool :=
  (w.server.streams.find? (fun c => c.1 = id)).isSome

/-- The snapshot returned by `Server.GetStats`: a pure read of every
counter, plus uptime computed as now minus the recorded start time. -/
structure StatsResponse where
  tracesObserved : Nat
  metricsObserved : Nat
  logsObserved : Nat
  bytesObserved : Nat
  activeReaders : Nat
  activeWriters : Int
  uptimeSeconds : Nat
deriving DecidableEq, Repr

/-- `Server.GetStats`: loads each counter and computes the uptime; it
mutates nothing. -/
def getStats (st : ServerState) (now : Nat) : StatsResponse :=
  { tracesObserved := st.stats.tracesObserved
    metricsObserved := st.stats.metricsObserved
    logsObserved := st.stats.logsObserved
    bytesObserved := st.stats.bytesObserved
    activeReaders := st.stats.activeReaders
    activeWriters := st.stats.activeWriters
    uptimeSeconds := now - st.stats.startTime }

/-- The events of a schedule that `Emit` accepts onto the intake queue
(the send case of the select fires), starting from world `w`. -/
def acceptedEvents (w : World) : List Op → List TelemetryEvent
  | [] => []
  | .emit ev ctxDone preferSend :: rest =>
      if w.server.intake.length < broadcastCap ∧ (ctxDone = false ∨ preferSend = true) then
        ev :: acceptedEvents (stepOp w (.emit ev ctxDone preferSend)) rest
      else
        acceptedEvents (stepOp w (.emit ev ctxDone preferSend)) rest
  | op :: rest => acceptedEvents (stepOp w op) rest

/-- Stats update performed by an accepted `Emit`: one kind counter (none for
the unspecified kind) and the payload length added to the byte counter. -/
def bumpStats (s : DaemonStats) (ev : TelemetryEvent) : DaemonStats :=
  let s1 :=
    match ev.type_ with
    | .trace => { s with tracesObserved := s.tracesObserved + 1 }
    | .metric => { s with metricsObserved := s.metricsObserved + 1 }
    | .log => { s with logsObserved := s.logsObserved + 1 }
    | .unspecified => s
  { s1 with bytesObserved := s1.bytesObserved + ev.data.length }

lemma emit_not_accepted (st : ServerState) (ev : TelemetryEvent) (ps : Bool)
    (h : ¬ st.intake.length < broadcastCap) :
    emit st ev false ps = (st, .ok) := by
  simp [emit, emitSteps, h, stepsOutcome, applyStep]

lemma emit_accepted (st : ServerState) (ev : TelemetryEvent) (ps : Bool)
    (h : st.intake.length < broadcastCap) :
    emit st ev false ps =
      ({ st with intake := st.intake ++ [ev], stats := bumpStats st.stats ev }, .ok) := by
  cases ev with
  | mk t d =>
    cases t <;>
      simp [emit, emitSteps, h, stepsOutcome, applyStep, kindSteps, bumpStats]

/-- Sample payload event used in concrete witnesses. -/
def ev0 : TelemetryEvent := { type_ := .trace, data := [1, 2, 3] }

/-- A server whose central intake queue is full (1000 queued events). -/
def fullServer : ServerState :=
  { intake := List.replicate 1000 { type_ := .unspecified, data := [] }
    streams := []
    stats := {} }

/-- The freshly constructed server state on its own. -/
def emptyServer : ServerState := { intake := [], streams := [], stats := {} }

/-- C1: an `Emit` call made while the central intake queue (capacity 1000) is
full and whose context is live returns the empty success response with no
error, and the event is dropped silently: the server state, intake queue
included, is unchanged. -/
theorem C1_emit_full_queue_fire_and_forget (st : ServerState) (ev : TelemetryEvent)
    (ps : Bool) (h : ¬ st.intake.length < broadcastCap) :
    broadcastCap = 1000 ∧ emit st ev false ps = (st, .ok) :=
  ⟨rfl, emit_not_accepted st ev ps h⟩

/-- Witness for C1 at a concretely full queue. -/
theorem C1_emit_full_queue_fire_and_forget_witness :
    (¬ fullServer.intake.length < broadcastCap) ∧
      (broadcastCap = 1000 ∧ emit fullServer ev0 false true = (fullServer, .ok)) :=
  ⟨by simp [fullServer, broadcastCap],
   C1_emit_full_queue_fire_and_forget fullServer ev0 true
     (by simp [fullServer, broadcastCap])⟩

/-- C10: an `Emit` call that finds the central intake queue full (context
live) still answers with the empty success response, but none of the four
observed counters — traces, metrics, logs, bytes — moves: a centrally
dropped event is invisible to `GetStats`. -/
theorem C10_central_drop_not_counted (st : ServerState) (ev : TelemetryEvent)
    (ps : Bool) (h : ¬ st.intake.length < broadcastCap) :
    (emit st ev false ps).2 = .ok ∧
    (emit st ev false ps).1.stats.tracesObserved = st.stats.tracesObserved ∧
    (emit st ev false ps).1.stats.metricsObserved = st.stats.metricsObserved ∧
    (emit st ev false ps).1.stats.logsObserved = st.stats.logsObserved ∧
    (emit st ev false ps).1.stats.bytesObserved = st.stats.bytesObserved := by
  rw [emit_not_accepted st ev ps h]
  exact ⟨rfl, rfl, rfl, rfl, rfl⟩

/-- Witness for C10 at a concretely full queue. -/
theorem C10_central_drop_not_counted_witness :
    (¬ fullServer.intake.length < broadcastCap) ∧
      (emit fullServer ev0 false true).2 = .ok ∧
      (emit fullServer ev0 false true).1.stats.bytesObserved =
        fullServer.stats.bytesObserved :=
  ⟨by simp [fullServer, broadcastCap],
   (C10_central_drop_not_counted fullServer ev0 true
     (by simp [fullServer, broadcastCap])).1,
   (C10_central_drop_not_counted fullServer ev0 true
     (by simp [fullServer, broadcastCap])).2.2.2.2⟩

/-- Does an Emit micro-step increment a Stats Ledger counter? -/
def isBumpStep : EmitStep → Bool
  | .bumpKind _ => true
  | .bumpBytes _ => true
  | _ => false

/-- Is an Emit micro-step the send onto the central intake queue? -/
def isEnqueueStep : EmitStep → Bool
  | .enqueue _ => true
  | _ => false

/-- Counterexample to C6 as stated: in `Server.Emit`, the send onto the
central intake queue (`case s.broadcast <- event:`) happens first, and the
counter increments run afterwards in the case body — at this concrete
accepted call the first counter increment does not precede the enqueue. -/
theorem C6_counterexample_enqueue_precedes_bumps :
    emitSteps emptyServer ev0 false true =
      [.enqueue ev0, .bumpKind .trace, .bumpBytes 3, .respond .ok] ∧
    ¬ ((emitSteps emptyServer ev0 false true).findIdx isBumpStep <
       (emitSteps emptyServer ev0 false true).findIdx isEnqueueStep) := by
  constructor
  · decide
  · decide

/-- C6 (amended): for every `Emit` call whose event is accepted onto the
central intake queue, the kind counter and the byte counter are incremented
once each immediately after the event is enqueued for distribution: the
micro-step sequence is the enqueue first, then the increments, and the
post-state carries both the appended intake entry and the bumped stats. -/
theorem C6_amended_counters_bumped_after_enqueue (st : ServerState)
    (ev : TelemetryEvent) (ps : Bool) (h : st.intake.length < broadcastCap) :
    emitSteps st ev false ps =
      .enqueue ev :: (kindSteps ev.type_ ++ [.bumpBytes ev.data.length, .respond .ok]) ∧
    (emit st ev false ps).1 =
      { st with intake := st.intake ++ [ev], stats := bumpStats st.stats ev } ∧
    (emit st ev false ps).2 = .ok := by
  refine ⟨?_, ?_, ?_⟩
  · simp [emitSteps, h]
  · rw [emit_accepted st ev ps h]
  · rw [emit_accepted st ev ps h]

/-- Witness for the amended C6 at a concrete accepted trace event. -/
theorem C6_amended_counters_bumped_after_enqueue_witness :
    (emptyServer.intake.length < broadcastCap) ∧
      (emit emptyServer ev0 false true).1 =
        { emptyServer with intake := [ev0], stats := bumpStats emptyServer.stats ev0 } :=
  ⟨by decide,
   (C6_amended_counters_bumped_after_enqueue emptyServer ev0 true (by decide)).2.1⟩

/-- Componentwise order on the four observed counters. -/
def obsLe (a b : DaemonStats) : Prop :=
  a.tracesObserved ≤ b.tracesObserved ∧
  a.metricsObserved ≤ b.metricsObserved ∧
  a.logsObserved ≤ b.logsObserved ∧
  a.bytesObserved ≤ b.bytesObserved

lemma obsLe_refl (a : DaemonStats) : obsLe a a :=
  ⟨le_refl _, le_refl _, le_refl _, le_refl _⟩

lemma obsLe_trans {a b c : DaemonStats} (h1 : obsLe a b) (h2 : obsLe b c) : obsLe a c :=
  ⟨h1.1.trans h2.1, h1.2.1.trans h2.2.1, h1.2.2.1.trans h2.2.2.1, h1.2.2.2.trans h2.2.2.2⟩

lemma applyStep_obsLe (st : ServerState) (s : EmitStep) :
    obsLe st.stats (applyStep st s).stats := by
  cases s with
  | enqueue ev => exact obsLe_refl _
  | bumpKind t =>
      cases t <;>
        exact ⟨by simp [applyStep], by simp [applyStep], by simp [applyStep],
               by simp [applyStep]⟩
  | bumpBytes n =>
      exact ⟨by simp [applyStep], by simp [applyStep], by simp [applyStep],
             by simp [applyStep]⟩
  | respond o => exact obsLe_refl _

lemma foldl_applyStep_obsLe (l : List EmitStep) (st : ServerState) :
    obsLe st.stats (l.foldl applyStep st).stats := by
  induction l generalizing st with
  | nil => exact obsLe_refl _
  | cons s rest ih =>
      exact obsLe_trans (applyStep_obsLe st s) (ih (applyStep st s))

lemma stepOp_obsLe (w : World) (op : Op) :
    obsLe w.server.stats (stepOp w op).server.stats := by
  cases op with
  | emit ev cd ps => exact foldl_applyStep_obsLe _ _
  | register id => exact ⟨by simp [stepOp], by simp [stepOp], by simp [stepOp], by simp [stepOp]⟩
  | deregister id => exact ⟨by simp [stepOp], by simp [stepOp], by simp [stepOp], by simp [stepOp]⟩
  | deliver =>
      cases h : w.server.intake with
      | nil => simp [stepOp, h]; exact obsLe_refl _
      | cons ev rest =>
          exact ⟨by simp [stepOp, h], by simp [stepOp, h], by simp [stepOp, h],
                 by simp [stepOp, h]⟩
  | drain id =>
      cases hf : (w.server.streams.find? (fun c => c.1 = id)).map (·.2) with
      | none => simp [stepOp, hf]; exact obsLe_refl _
      | some q =>
          cases q with
          | nil => simp [stepOp, hf]; exact obsLe_refl _
          | cons ev tail =>
              exact ⟨by simp [stepOp, hf], by simp [stepOp, hf], by simp [stepOp, hf],
                     by simp [stepOp, hf]⟩

lemma runOps_obsLe (ops : List Op) (w : World) :
    obsLe w.server.stats (runOps w ops).server.stats := by
  induction ops generalizing w with
  | nil => exact obsLe_refl _
  | cons op rest ih =>
      exact obsLe_trans (stepOp_obsLe w op) (ih (stepOp w op))

lemma runOps_append (r ext : List Op) (w : World) :
    runOps w (r ++ ext) = runOps (runOps w r) ext := by
  induction r generalizing w with
  | nil => rfl
  | cons op rest ih => simp [runOps, ih]

/-- Sum of the three kind counters. -/
def sumKinds (st : ServerState) : Nat :=
  st.stats.tracesObserved + st.stats.metricsObserved + st.stats.logsObserved

/-- Is an event of one of the three counted kinds? -/
def kindCounted (ev : TelemetryEvent) : Bool :=
  match ev.type_ with
  | .unspecified => false
  | _ => true

lemma emit_fst_of_accepted (st : ServerState) (ev : TelemetryEvent) (cd ps : Bool)
    (h : st.intake.length < broadcastCap ∧ (cd = false ∨ ps = true)) :
    (emit st ev cd ps).1 =
      { st with intake := st.intake ++ [ev], stats := bumpStats st.stats ev } := by
  cases ev with
  | mk t d =>
    cases t <;>
      simp [emit, emitSteps, h, applyStep, kindSteps, bumpStats]

lemma emit_fst_of_not_accepted (st : ServerState) (ev : TelemetryEvent) (cd ps : Bool)
    (h : ¬ (st.intake.length < broadcastCap ∧ (cd = false ∨ ps = true))) :
    (emit st ev cd ps).1 = st := by
  cases cd with
  | false =>
      have hlen : ¬ st.intake.length < broadcastCap := fun hl => h ⟨hl, Or.inl rfl⟩
      simp [emit, emitSteps, hlen, applyStep]
  | true =>
      by_cases hps : st.intake.length < broadcastCap ∧ ps = true
      · exact absurd ⟨hps.1, Or.inr hps.2⟩ h
      · simp [emit, emitSteps, hps, applyStep]

lemma sumKinds_bumpStats (s : DaemonStats) (ev : TelemetryEvent) :
    (bumpStats s ev).tracesObserved + (bumpStats s ev).metricsObserved +
      (bumpStats s ev).logsObserved =
    s.tracesObserved + s.metricsObserved + s.logsObserved +
      (if kindCounted ev then 1 else 0) := by
  cases ev with
  | mk t d => cases t <;> simp [bumpStats, kindCounted] <;> omega

lemma sumKinds_run (ops : List Op) (w : World) :
    sumKinds (runOps w ops).server =
      sumKinds w.server + ((acceptedEvents w ops).filter kindCounted).length := by
  induction ops generalizing w with
  | nil => simp [runOps, acceptedEvents]
  | cons op rest ih =>
      cases op with
      | emit ev cd ps =>
          by_cases hacc : w.server.intake.length < broadcastCap ∧ (cd = false ∨ ps = true)
          · have hstep : sumKinds (stepOp w (.emit ev cd ps)).server =
                sumKinds w.server + (if kindCounted ev then 1 else 0) := by
              simp [stepOp, emit_fst_of_accepted _ _ _ _ hacc, sumKinds]
              exact sumKinds_bumpStats w.server.stats ev
            rw [runOps, ih, hstep]
            by_cases hk : kindCounted ev <;> simp [acceptedEvents, hacc, hk] <;> omega
          · have hstep : sumKinds (stepOp w (.emit ev cd ps)).server = sumKinds w.server := by
              simp [stepOp, emit_fst_of_not_accepted _ _ _ _ hacc]
            rw [runOps, ih, hstep]
            simp [acceptedEvents, hacc]
      | register id =>
          rw [runOps, ih]
          simp [stepOp, sumKinds, acceptedEvents]
      | deregister id =>
          rw [runOps, ih]
          simp [stepOp, sumKinds, acceptedEvents]
      | deliver =>
          rw [runOps, ih]
          cases h : w.server.intake <;> simp [stepOp, h, sumKinds, acceptedEvents]
      | drain id =>
          rw [runOps, ih]
          have hst : sumKinds (stepOp w (.drain id)).server = sumKinds w.server := by
            cases hf : (w.server.streams.find? (fun c => c.1 = id)).map (·.2) with
            | none => simp [stepOp, hf]
            | some q =>
                cases q with
                | nil => simp [stepOp, hf]
                | cons ev tail => simp [stepOp, hf, sumKinds]
          rw [hst]
          simp [acceptedEvents]

/-- Counterexample to C7 as stated: `GetStats` also returns the
`active_readers` gauge, and within one lifetime it decreases when a
consumer disconnects — after `register 5` it reads 1, after the
subsequent `deregister 5` it reads 0. -/
theorem C7_counterexample_active_readers_decrease :
    (getStats (runOps world0 [.register 5]).server 0).activeReaders = 1 ∧
    (getStats (runOps world0 [.register 5, .deregister 5]).server 0).activeReaders = 0 ∧
    ¬ ((getStats (runOps world0 [.register 5]).server 0).activeReaders ≤
       (getStats (runOps world0 [.register 5, .deregister 5]).server 0).activeReaders) := by
  refine ⟨by decide, by decide, by decide⟩

/-- C7 (amended): across any sequence of `GetStats` calls in one server
lifetime the four observed counters (traces, metrics, logs, bytes) are
non-decreasing — the `active_readers`/`active_writers` gauges may decrease —
and `traces_observed + metrics_observed + logs_observed` never exceeds the
number of accepted `Emit` calls whose events are of those kinds. -/
theorem C7_amended_observed_counters_monotone (r ext : List Op) (t1 t2 : Nat) :
    (getStats (runOps world0 r).server t1).tracesObserved ≤
      (getStats (runOps world0 (r ++ ext)).server t2).tracesObserved ∧
    (getStats (runOps world0 r).server t1).metricsObserved ≤
      (getStats (runOps world0 (r ++ ext)).server t2).metricsObserved ∧
    (getStats (runOps world0 r).server t1).logsObserved ≤
      (getStats (runOps world0 (r ++ ext)).server t2).logsObserved ∧
    (getStats (runOps world0 r).server t1).bytesObserved ≤
      (getStats (runOps world0 (r ++ ext)).server t2).bytesObserved ∧
    (getStats (runOps world0 r).server t1).tracesObserved +
      (getStats (runOps world0 r).server t1).metricsObserved +
      (getStats (runOps world0 r).server t1).logsObserved ≤
      ((acceptedEvents world0 r).filter kindCounted).length := by
  have hmono := runOps_obsLe ext (runOps world0 r)
  rw [runOps_append]
  have hsum := sumKinds_run r world0
  refine ⟨?_, ?_, ?_, ?_, ?_⟩ <;>
    simp_all [getStats, sumKinds, world0, obsLe]

/-- Events submitted by the `Emit` calls of an operation. -/
def opEmits : Op → List TelemetryEvent
  | .emit ev _ _ => [ev]
  | .register _ => []
  | .deregister _ => []
  | .deliver => []
  | .drain _ => []

/-- Events submitted by the `Emit` calls of a schedule, in order. -/
def emittedEvents : List Op → List TelemetryEvent
  | [] => []
  | op :: rest => opEmits op ++ emittedEvents rest

/-- Per-step side conditions of the ordered-delivery property for consumer
`c`: every `Emit` is accepted (live context, intake below capacity), `c`'s
queue is below capacity whenever the distribution loop runs, and `c` never
disconnects. -/
def okStepB (c : Nat) (w : World) : Op → Bool
  | .emit _ ctxDone _ => !ctxDone && decide (w.server.intake.length < broadcastCap)
  | .register _ => true
  | .deregister i => !(i == c)
  | .deliver => decide ((queueOf w c).length < streamCap)
  | .drain _ => true

/-- The side conditions held at every step of a schedule. -/
def okRunB (c : Nat) (w : World) : List Op → Bool
  | [] => true
  | op :: rest => okStepB c w op && okRunB c (stepOp w op) rest

/-- Invariant tying consumer `c`'s pipeline to the accepted events `acc`:
`c` is registered, has a delivery record, and the events already written to
`c`'s client, still in `c`'s queue, and still in the central intake —
concatenated in that order — are exactly `acc`. -/
def ConsumerInv (c : Nat) (w : World) (acc : List TelemetryEvent) : Prop :=
  registered w c = true ∧
  (w.delivered.find? (fun x => x.1 = c)).isSome = true ∧
  deliveredTo w c ++ queueOf w c ++ w.server.intake = acc

lemma find?_append_of_isSome (l1 l2 : List (Nat × List TelemetryEvent)) (c : Nat)
    (h : (l1.find? (fun x => x.1 = c)).isSome = true) :
    (l1 ++ l2).find? (fun x => x.1 = c) = l1.find? (fun x => x.1 = c) := by
  induction l1 with
  | nil => simp at h
  | cons x xs ih =>
      by_cases hx : x.1 = c
      · rw [List.cons_append, List.find?_cons_of_pos _ (by simpa using hx),
            List.find?_cons_of_pos _ (by simpa using hx)]
      · rw [List.cons_append, List.find?_cons_of_neg _ (by simpa using hx),
            List.find?_cons_of_neg _ (by simpa using hx)]
        apply ih
        rwa [List.find?_cons_of_neg _ (by simpa using hx)] at h

lemma find?_filter_ne (l : List (Nat × List TelemetryEvent)) (i c : Nat) (h : ¬ i = c) :
    (l.filter (fun x => ¬ x.1 = i)).find? (fun x => x.1 = c) =
      l.find? (fun x => x.1 = c) := by
  induction l with
  | nil => rfl
  | cons x xs ih =>
      by_cases hc : x.1 = c
      · have hxi : ¬ x.1 = i := fun hxi => h (hxi ▸ hc)
        rw [List.filter_cons_of_pos (by simpa using hxi),
            List.find?_cons_of_pos _ (by simpa using hc),
            List.find?_cons_of_pos _ (by simpa using hc)]
      · by_cases hxi : x.1 = i
        · rw [List.filter_cons_of_neg (by simpa using hxi),
              List.find?_cons_of_neg _ (by simpa using hc), ih]
        · rw [List.filter_cons_of_pos (by simpa using hxi),
              List.find?_cons_of_neg _ (by simpa using hc),
              List.find?_cons_of_neg _ (by simpa using hc), ih]

lemma find?_fanOut (ev : TelemetryEvent) (l : List (Nat × List TelemetryEvent)) (c : Nat) :
    (fanOut ev l).find? (fun x => x.1 = c) =
      (l.find? (fun x => x.1 = c)).map (fun x => (x.1, tryPush streamCap x.2 ev)) := by
  induction l with
  | nil => rfl
  | cons x xs ih =>
      show ((x.1, tryPush streamCap x.2 ev) :: fanOut ev xs).find? (fun x => x.1 = c) = _
      by_cases hc : x.1 = c
      · rw [List.find?_cons_of_pos _ (by simpa using hc),
            List.find?_cons_of_pos _ (by simpa using hc)]
        rfl
      · rw [List.find?_cons_of_neg _ (by simpa using hc),
            List.find?_cons_of_neg _ (by simpa using hc), ih]

lemma find?_updateAssoc_self (k : Nat) (f : List TelemetryEvent → List TelemetryEvent)
    (l : List (Nat × List TelemetryEvent)) :
    (updateAssoc k f l).find? (fun x => x.1 = k) =
      (l.find? (fun x => x.1 = k)).map (fun x => (x.1, f x.2)) := by
  induction l with
  | nil => rfl
  | cons x xs ih =>
      by_cases hx : x.1 = k
      · rw [updateAssoc, if_pos hx,
            List.find?_cons_of_pos _ (by simpa using hx),
            List.find?_cons_of_pos _ (by simpa using hx)]
        rfl
      · rw [updateAssoc, if_neg hx,
            List.find?_cons_of_neg _ (by simpa using hx),
            List.find?_cons_of_neg _ (by simpa using hx), ih]

lemma find?_updateAssoc_ne (k : Nat) (f : List TelemetryEvent → List TelemetryEvent)
    (l : List (Nat × List TelemetryEvent)) (c : Nat) (h : ¬ k = c) :
    (updateAssoc k f l).find? (fun x => x.1 = c) = l.find? (fun x => x.1 = c) := by
  induction l with
  | nil => rfl
  | cons x xs ih =>
      by_cases hx : x.1 = k
      · have hxc : ¬ x.1 = c := fun hc => h (hx ▸ hc)
        rw [updateAssoc, if_pos hx,
            List.find?_cons_of_neg _ (by simpa using hxc),
            List.find?_cons_of_neg _ (by simpa using hxc)]
      · by_cases hc : x.1 = c
        · rw [updateAssoc, if_neg hx,
              List.find?_cons_of_pos _ (by simpa using hc),
              List.find?_cons_of_pos _ (by simpa using hc)]
        · rw [updateAssoc, if_neg hx,
              List.find?_cons_of_neg _ (by simpa using hc),
              List.find?_cons_of_neg _ (by simpa using hc), ih]

lemma deliveredTo_congr {w w' : World} (h : w'.delivered = w.delivered) (c : Nat) :
    deliveredTo w' c = deliveredTo w c := by
  unfold deliveredTo; rw [h]

lemma queueOf_congr {w w' : World} (h : w'.server.streams = w.server.streams) (c : Nat) :
    queueOf w' c = queueOf w c := by
  unfold queueOf; rw [h]

lemma registered_congr {w w' : World} (h : w'.server.streams = w.server.streams) (c : Nat) :
    registered w' c = registered w c := by
  unfold registered; rw [h]

lemma consumerInv_step (c : Nat) (w : World) (acc : List TelemetryEvent) (op : Op)
    (hInv : ConsumerInv c w acc) (hok : okStepB c w op = true) :
    ConsumerInv c (stepOp w op) (acc ++ opEmits op) := by
  obtain ⟨hreg, hdel, heq⟩ := hInv
  have hregS : (w.server.streams.find? (fun x => x.1 = c)).isSome = true := hreg
  cases op with
  | emit ev cd ps =>
      obtain ⟨hcd, hlen⟩ : cd = false ∧ w.server.intake.length < broadcastCap := by
        simpa [okStepB] using hok
      subst hcd
      have hemit := emit_fst_of_accepted w.server ev false ps ⟨hlen, Or.inl rfl⟩
      have hstr : (stepOp w (.emit ev false ps)).server.streams = w.server.streams := by
        simp [stepOp, hemit]
      have hint : (stepOp w (.emit ev false ps)).server.intake = w.server.intake ++ [ev] := by
        simp [stepOp, hemit]
      have hd : (stepOp w (.emit ev false ps)).delivered = w.delivered := rfl
      refine ⟨?_, ?_, ?_⟩
      · rw [registered_congr hstr]; exact hreg
      · rw [hd]; exact hdel
      · rw [deliveredTo_congr hd, queueOf_congr hstr, hint, opEmits]
        rw [← heq]
        simp
  | register i =>
      have hstr : (stepOp w (.register i)).server.streams = w.server.streams ++ [(i, [])] := rfl
      have hint : (stepOp w (.register i)).server.intake = w.server.intake := rfl
      have hfd : (stepOp w (.register i)).delivered.find? (fun x => x.1 = c) =
          w.delivered.find? (fun x => x.1 = c) := by
        by_cases hdi : (w.delivered.find? (fun x => x.1 = i)).isSome = true
        · have hsame : (stepOp w (.register i)).delivered = w.delivered := by
            simp [stepOp, hdi]
          rw [hsame]
        · have happ : (stepOp w (.register i)).delivered = w.delivered ++ [(i, [])] := by
            simp [stepOp, hdi]
          rw [happ]
          exact find?_append_of_isSome _ _ _ hdel
      have hqf : queueOf (stepOp w (.register i)) c = queueOf w c := by
        unfold queueOf
        rw [hstr, find?_append_of_isSome _ _ _ hregS]
      refine ⟨?_, ?_, ?_⟩
      · unfold registered
        rw [hstr, find?_append_of_isSome _ _ _ hregS]
        exact hreg
      · rw [hfd]; exact hdel
      · rw [hqf, hint, opEmits]
        unfold deliveredTo
        rw [hfd]
        simpa using heq
  | deregister i =>
      have hic : ¬ i = c := by simpa [okStepB] using hok
      have hstr : (stepOp w (.deregister i)).server.streams =
          w.server.streams.filter (fun x => ¬ x.1 = i) := rfl
      have hint : (stepOp w (.deregister i)).server.intake = w.server.intake := rfl
      have hd : (stepOp w (.deregister i)).delivered = w.delivered := rfl
      have hff : (stepOp w (.deregister i)).server.streams.find? (fun x => x.1 = c) =
          w.server.streams.find? (fun x => x.1 = c) := by
        rw [hstr]; exact find?_filter_ne _ _ _ hic
      refine ⟨?_, ?_, ?_⟩
      · unfold registered; rw [hff]; exact hreg
      · rw [hd]; exact hdel
      · rw [deliveredTo_congr hd, hint, opEmits]
        unfold queueOf
        rw [hff]
        simpa using heq
  | deliver =>
      have hq : (queueOf w c).length < streamCap := by simpa [okStepB] using hok
      cases hint : w.server.intake with
      | nil =>
          have hw : stepOp w .deliver = w := by simp [stepOp, hint]
          rw [hw, opEmits]
          exact ⟨hreg, hdel, by simpa using heq⟩
      | cons ev rest =>
          obtain ⟨p, hp⟩ := Option.isSome_iff_exists.mp hregS
          have hqp : queueOf w c = p.2 := by unfold queueOf; rw [hp]; rfl
          have hstr : (stepOp w .deliver).server.streams = fanOut ev w.server.streams := by
            simp [stepOp, hint]
          have hint' : (stepOp w .deliver).server.intake = rest := by
            simp [stepOp, hint]
          have hd : (stepOp w .deliver).delivered = w.delivered := by
            simp [stepOp, hint]
          have hff : (stepOp w .deliver).server.streams.find? (fun x => x.1 = c) =
              some (p.1, p.2 ++ [ev]) := by
            rw [hstr, find?_fanOut, hp]
            simp [tryPush, hqp ▸ hq]
          refine ⟨?_, ?_, ?_⟩
          · unfold registered; rw [hff]; rfl
          · rw [hd]; exact hdel
          · rw [deliveredTo_congr hd, hint', opEmits]
            unfold queueOf
            rw [hff]
            have : deliveredTo w c ++ (p.2 ++ [ev]) ++ rest =
                deliveredTo w c ++ p.2 ++ (ev :: rest) := by simp
            simpa [this, hqp ▸ hint ▸ heq] using (hqp ▸ hint ▸ heq)
  | drain i =>
      cases hf : (w.server.streams.find? (fun x => x.1 = i)).map (·.2) with
      | none =>
          have hw : stepOp w (.drain i) = w := by simp [stepOp, hf]
          rw [hw, opEmits]
          exact ⟨hreg, hdel, by simpa using heq⟩
      | some q =>
          cases q with
          | nil =>
              have hw : stepOp w (.drain i) = w := by simp [stepOp, hf]
              rw [hw, opEmits]
              exact ⟨hreg, hdel, by simpa using heq⟩
          | cons e tail =>
              have hstr : (stepOp w (.drain i)).server.streams =
                  updateAssoc i (fun q => q.tail) w.server.streams := by
                simp [stepOp, hf]
              have hint : (stepOp w (.drain i)).server.intake = w.server.intake := by
                simp [stepOp, hf]
              have hd : (stepOp w (.drain i)).delivered =
                  updateAssoc i (fun d => d ++ [e]) w.delivered := by
                simp [stepOp, hf]
              by_cases hic : i = c
              · subst hic
                obtain ⟨p, hp⟩ := Option.isSome_iff_exists.mp hregS
                have hp2 : p.2 = e :: tail := by
                  rw [hp] at hf
                  simpa using hf
                obtain ⟨pd, hpd⟩ := Option.isSome_iff_exists.mp hdel
                refine ⟨?_, ?_, ?_⟩
                · unfold registered
                  rw [hstr, find?_updateAssoc_self, hp]
                  rfl
                · rw [hd, find?_updateAssoc_self, hpd]
                  rfl
                · rw [hint, opEmits]
                  unfold deliveredTo queueOf
                  rw [hd, hstr, find?_updateAssoc_self, find?_updateAssoc_self, hp, hpd]
                  unfold deliveredTo queueOf at heq
                  rw [hp, hpd] at heq
                  simp only [Option.map_some', Option.getD_some] at heq ⊢
                  rw [hp2] at heq ⊢
                  simpa using heq
              · refine ⟨?_, ?_, ?_⟩
                · unfold registered
                  rw [hstr, find?_updateAssoc_ne _ _ _ _ hic]
                  exact hreg
                · rw [hd, find?_updateAssoc_ne _ _ _ _ hic]
                  exact hdel
                · rw [hint, opEmits]
                  unfold deliveredTo queueOf
                  rw [hd, hstr, find?_updateAssoc_ne _ _ _ _ hic,
                      find?_updateAssoc_ne _ _ _ _ hic]
                  simpa using heq

lemma consumerInv_run (c : Nat) (ops : List Op) (w : World) (acc : List TelemetryEvent)
    (hInv : ConsumerInv c w acc) (hok : okRunB c w ops = true) :
    ConsumerInv c (runOps w ops) (acc ++ emittedEvents ops) := by
  induction ops generalizing w acc with
  | nil => simpa [runOps, emittedEvents] using hInv
  | cons op rest ih =>
      obtain ⟨h1, h2⟩ : okStepB c w op = true ∧ okRunB c (stepOp w op) rest = true := by
        simpa [okRunB, Bool.and_eq_true] using hok
      have hstep := consumerInv_step c w acc op hInv h1
      have hrest := ih (stepOp w op) (acc ++ opEmits op) hstep h2
      simpa [runOps, emittedEvents, List.append_assoc] using hrest

/-- Initial world for the ordered-delivery claim: consumer `c` has already
registered (its queue and delivery record exist and are empty) and nothing
has been emitted yet. -/
def world0c (c : Nat) : World :=
  { server := { intake := [], streams := [(c, [])], stats := { activeReaders := 1 } }
    delivered := [(c, [])] }

/-- C2: for every schedule in which each `Emit` is accepted (live context,
intake below capacity), consumer `c` — registered before the first of them —
never has a full queue when the distribution loop runs, and `c` never
disconnects, the events written to `c`'s client followed by those still in
flight are exactly the emitted events in emission order; once the intake and
`c`'s queue are drained, `c` has received exactly those events in that
order. No relation between distinct consumers' streams is asserted. -/
theorem C2_ordered_exact_delivery (c : Nat) (run : List Op)
    (hok : okRunB c (world0c c) run = true) :
    deliveredTo (runOps (world0c c) run) c ++ queueOf (runOps (world0c c) run) c ++
        (runOps (world0c c) run).server.intake = emittedEvents run ∧
    ((runOps (world0c c) run).server.intake = [] →
      queueOf (runOps (world0c c) run) c = [] →
      deliveredTo (runOps (world0c c) run) c = emittedEvents run) := by
  have h0 : ConsumerInv c (world0c c) [] := by
    refine ⟨?_, ?_, ?_⟩
    · simp [registered, world0c]
    · simp [world0c]
    · simp [deliveredTo, queueOf, world0c]
  have h := consumerInv_run c run (world0c c) [] h0 hok
  obtain ⟨-, -, heq⟩ := h
  simp only [List.nil_append] at heq
  refine ⟨heq, fun h1 h2 => ?_⟩
  rw [h1, h2] at heq
  simpa using heq

/-- Demo events for the C2 witness. -/
def e1 : TelemetryEvent := { type_ := .trace, data := [10] }

/-- Second demo event for the C2 witness. -/
def e2 : TelemetryEvent := { type_ := .log, data := [20] }

/-- Demo schedule: two emissions, each distributed and drained by consumer 0. -/
def demoRun : List Op :=
  [.emit e1 false true, .deliver, .drain 0, .emit e2 false true, .deliver, .drain 0]

/-- Witness for C2 on a concrete two-event schedule. -/
theorem C2_ordered_exact_delivery_witness :
    okRunB 0 (world0c 0) demoRun = true ∧
    deliveredTo (runOps (world0c 0) demoRun) 0 = emittedEvents demoRun :=
  ⟨by decide,
   (C2_ordered_exact_delivery 0 demoRun (by decide)).2 (by decide) (by decide)⟩

/-- Event number `k` of the C3 scenario: a trace whose payload is the single
byte `k`. -/
def evk (k : Nat) : TelemetryEvent := { type_ := .trace, data := [k] }

/-- Initial world of the C3 scenario: consumers 0 and 1 both registered. -/
def world2 : World :=
  { server := { intake := [], streams := [(0, []), (1, [])], stats := { activeReaders := 2 } }
    delivered := [(0, []), (1, [])] }

/-- One round of the C3 scenario: event `k` is emitted, the distribution
loop fans it out, and only consumer 1 drains its queue. -/
def round (k : Nat) : List Op := [.emit (evk k) false true, .deliver, .drain 1]

/-- The first `n` rounds of the C3 scenario, in order. -/
def rounds : Nat → List Op
  | 0 => []
  | n + 1 => rounds n ++ round n

/-- Closed form of the world after `n` rounds: consumer 0's queue holds the
first `min n 100` events (it stops filling at capacity), consumer 1 has
drained every event. -/
def midWorld (n : Nat) : World :=
  { server := { intake := []
                streams := [(0, (List.range (min n 100)).map evk), (1, [])]
                stats := { tracesObserved := n, bytesObserved := n, activeReaders := 2 } }
    delivered := [(0, []), (1, (List.range n).map evk)] }

lemma runOps_rounds (n : Nat) : runOps world2 (rounds n) = midWorld n := by
  induction n with
  | zero => decide
  | succ n ih =>
      rw [rounds, runOps_append, ih]
      by_cases hn : n < 100
      · have hmin : min n 100 = n := by omega
        have hmin' : min (n + 1) 100 = n + 1 := by omega
        simp [round, runOps, stepOp, midWorld, emit, emitSteps, broadcastCap, kindSteps,
              applyStep, fanOut, tryPush, streamCap, updateAssoc, evk, bumpStats,
              List.find?, hmin, hmin', hn, List.range_succ]
      · have hmin : min n 100 = 100 := by omega
        have hmin' : min (n + 1) 100 = 100 := by omega
        simp [round, runOps, stepOp, midWorld, emit, emitSteps, broadcastCap, kindSteps,
              applyStep, fanOut, tryPush, streamCap, updateAssoc, evk, bumpStats,
              List.find?, hmin, hmin', hn, List.range_succ]

/-- C3: the fan-out updates each consumer's queue independently of every
other consumer's queue, and in the concrete 150-event scenario (capacity
100) the never-draining consumer 0 ends with exactly the first 100 events
stuck in its queue (having received none), while the actively draining
consumer 1 receives all 150 events in order. -/
theorem C3_slow_consumer_isolated :
    streamCap = 100 ∧
    (∀ (ev : TelemetryEvent) (qa qb : List TelemetryEvent),
      fanOut ev [(0, qa), (1, qb)] =
        [(0, tryPush streamCap qa ev), (1, tryPush streamCap qb ev)]) ∧
    queueOf (runOps world2 (rounds 150)) 0 = (List.range 100).map evk ∧
    (queueOf (runOps world2 (rounds 150)) 0).length = 100 ∧
    deliveredTo (runOps world2 (rounds 150)) 0 = [] ∧
    deliveredTo (runOps world2 (rounds 150)) 1 = (List.range 150).map evk := by
  rw [runOps_rounds 150]
  refine ⟨rfl, fun ev qa qb => rfl, ?_, ?_, ?_, ?_⟩ <;>
    simp [midWorld, queueOf, deliveredTo, List.find?]

/-- State of one kind-specific service implementation of the binary-RPC
proxy (`traceServiceImpl` / `metricsServiceImpl` / `logsServiceImpl`):
whether an upstream connection was established at `Start`, and the lazily
created upstream client, modelled as its call behaviour. -/
structure ExportService (Req Resp : Type) where
  upstreamConfigured : Bool
  client : Option (Req → Except String Resp)

/-- Observable actions of an `Export` handler, in order. -/
inductive ExportAction (Req : Type) where
  | inspect (req : Req)
  | forwardUpstream (req : Req)

/-- One `Export` call of the binary-RPC proxy: hand the decoded request to
the inspector first, then lazily create the upstream client if an upstream
connection exists, and relay through it — returning its response or error
verbatim — or answer with the zero-value response when there is no client. -/
def exportCall {Req Resp : Type} (s : ExportService Req Resp)
    (mkClient : Req → Except String Resp) (zero : Resp) (req : Req) :
    ExportService Req Resp × List (ExportAction Req) × Except String Resp :=
  let s1 := if s.upstreamConfigured ∧ s.client.isNone
            then { s with client := some mkClient } else s
  match s1.client with
  | some cl => (s1, [.inspect req, .forwardUpstream req], cl req)
  | none => (s1, [.inspect req], .ok zero)

/-- C4: every export call on the binary-RPC front end hands the decoded
request to the inspection/emission path first — always, even when no
upstream is configured and even when forwarding subsequently fails — and
then returns the zero-value success response when no upstream was
configured, or the upstream's response or error verbatim when one was. -/
theorem C4_export_inspects_first_then_relays {Req Resp : Type}
    (s : ExportService Req Resp) (mkClient : Req → Except String Resp)
    (zero : Resp) (req : Req)
    (hinv : s.upstreamConfigured = false → s.client = none)
    (hcl : ∀ cl, s.client = some cl → cl = mkClient) :
    ((exportCall s mkClient zero req).2.1.head? = some (.inspect req)) ∧
    (s.upstreamConfigured = false →
      (exportCall s mkClient zero req).2.1 = [.inspect req] ∧
      (exportCall s mkClient zero req).2.2 = .ok zero) ∧
    (s.upstreamConfigured = true →
      (exportCall s mkClient zero req).2.1 = [.inspect req, .forwardUpstream req] ∧
      (exportCall s mkClient zero req).2.2 = mkClient req) := by
  cases hu : s.upstreamConfigured with
  | false =>
      have hc := hinv hu
      refine ⟨?_, fun _ => ⟨?_, ?_⟩, fun h => by simp [hu] at h⟩ <;>
        simp [exportCall, hu, hc]
  | true =>
      cases hc : s.client with
      | none =>
          refine ⟨?_, fun h => by simp [hu] at h, fun _ => ⟨?_, ?_⟩⟩ <;>
            simp [exportCall, hu, hc]
      | some cl =>
          have hcl' := hcl cl hc
          refine ⟨?_, fun h => by simp [hu] at h, fun _ => ⟨?_, ?_⟩⟩ <;>
            simp [exportCall, hu, hc, hcl']

/-- A freshly started service with an upstream configured. -/
def exportFresh : ExportService Nat Nat := { upstreamConfigured := true, client := none }

/-- An upstream whose connection is refused: every call errors. -/
def refusedClient : Nat → Except String Nat := fun _ => .error "connection refused"

/-- Witness for C4: with a refusing upstream, the inspector still receives
the request first and the upstream error is returned verbatim. -/
theorem C4_export_inspects_first_then_relays_witness :
    ((exportCall exportFresh refusedClient 0 7).2.1.head? = some (.inspect 7)) ∧
    ((exportCall exportFresh refusedClient 0 7).2.2 = .error "connection refused") := by
  have h := C4_export_inspects_first_then_relays exportFresh refusedClient 0 7
    (fun h => by simp [exportFresh] at h) (fun cl h => by simp [exportFresh] at h)
  exact ⟨h.1, (h.2.2 rfl).2⟩

/-- Environment of one `EnsureServerRunning` call: the outcome of the
initial connection probe, the outcome of each subsequent poll probe, whether
`cmd.Start()` succeeds, whether `exec.Command` recorded a path-lookup error
in `cmd.Err`, and — as ground truth the code never consults — whether the
spawned child in fact exited with an error. -/
structure EnsureWorld where
  initialProbe : Bool
  pollProbe : Nat → Bool
  startOk : Bool
  lookPathErr : Bool
  childExitedWithError : Bool

/-- Result of `EnsureServerRunning`. -/
inductive EnsureOutcome where
  | alreadyRunning
  | startFailed
  | exitedWithError
  | started (attempt : Nat)
  | timedOut
deriving DecidableEq, Repr

/-- The `for range 50` poll loop of `EnsureServerRunning`: sleep, probe
(return success if it answers), then check `cmd.Err` — which Go fixes at
`exec.Command` time as the path-lookup error and never updates from the
child's exit status, so `cmdErr` is constant through the loop. -/
def pollLoop (w : EnsureWorld) (cmdErr : Bool) : Nat → Nat → EnsureOutcome
  | 0, _ => .timedOut
  | fuel + 1, i =>
      if w.pollProbe i then .started i
      else if cmdErr then .exitedWithError
      else pollLoop w cmdErr fuel (i + 1)

/-- `EnsureServerRunning` from `stats.go`, paired with the number of child
processes it spawns: probe first and return at once on success; otherwise
spawn the daemon child (`cmd.Start` fails if the path lookup failed or the
fork fails) and poll up to 50 times at 10ms. -/
def ensureServerRunning (w : EnsureWorld) : EnsureOutcome × Nat :=
  if w.initialProbe then (.alreadyRunning, 0)
  else if w.lookPathErr then (.startFailed, 0)
  else if w.startOk = false then (.startFailed, 0)
  else (pollLoop w w.lookPathErr 50 0, 1)

lemma pollLoop_ne_exitedWithError (w : EnsureWorld) (fuel i : Nat) :
    pollLoop w false fuel i ≠ .exitedWithError := by
  induction fuel generalizing i with
  | zero => simp [pollLoop]
  | succ fuel ih =>
      by_cases hp : w.pollProbe i <;> simp [pollLoop, hp, ih]

/-- The environment of C5's failing input: nothing listens at the path, the
child spawns fine but exits with an error, and no probe ever succeeds. -/
def w5 : EnsureWorld :=
  { initialProbe := false
    pollProbe := fun _ => false
    startOk := true
    lookPathErr := false
    childExitedWithError := true }

/-- C5: once `cmd.Start()` has succeeded, `cmd.Err` (a path-lookup error
fixed when the command was built) is nil forever, so the fail-fast branch
can never fire: a spawned child that exits with an error is never detected,
and the call instead burns the whole 50-attempt budget and reports the
startup-timeout error — contradicting the claimed fail-fast behaviour. The
probe-success path (close and return with no spawn) is as claimed. -/
theorem C5_fail_fast_branch_is_dead :
    (∀ w : EnsureWorld,
      (ensureServerRunning
        { w with initialProbe := false, lookPathErr := false, startOk := true }).1 ≠
        .exitedWithError) ∧
    ensureServerRunning w5 = (.timedOut, 1) ∧
    w5.childExitedWithError = true ∧
    (∀ w : EnsureWorld, ensureServerRunning { w with initialProbe := true } =
      (.alreadyRunning, 0)) := by
  refine ⟨fun w => ?_, rfl, rfl, fun w => rfl⟩
  simpa [ensureServerRunning] using
    pollLoop_ne_exitedWithError { w with initialProbe := false, lookPathErr := false, startOk := true } 50 0

/-- `HTTPProxy.Start`: a bad upstream URL is merely logged, the listener is
bound inside the background goroutine by `ListenAndServe`, and `Start`
itself returns `nil` unconditionally — there is no error return path. -/
def httpStartReturn (_upstreamParseOk _bindOk : Bool) : Option String := none

/-- What `HTTPProxy`'s serve goroutine puts on the `serveErr` channel, as
read by `Err()`: the bind/serve error when `ListenAndServe` fails with an
error other than a clean shutdown, nothing otherwise. -/
def httpServeErr (bindOk : Bool) : Option String :=
  if bindOk then none else some "bind failed"

/-- `OTLPProxy.Start`: builds the upstream client first (a failure aborts
startup), then binds the TCP listener synchronously — returning the bind
error itself — and only then serves in the background. -/
def otlpStartReturn (upstreamConfigured clientOk bindOk : Bool) : Option String :=
  if upstreamConfigured ∧ clientOk = false then some "failed to connect to upstream"
  else if bindOk = false then some "failed to listen"
  else none

/-- Counterexample to C8 as stated: when the HTTP front end's listen address
cannot be bound, `Start` still returns nil — the bind error surfaces only on
the `Err()` channel, not as a non-nil return value of `Start`. -/
theorem C8_counterexample_http_start_swallows_bind_error :
    httpStartReturn true false = none ∧ httpServeErr false = some "bind failed" :=
  ⟨rfl, rfl⟩

/-- C8 (amended): the binary-RPC front end's `Start` binds synchronously and
reports a bind failure as its own non-nil return value, while the HTTP front
end's `Start` always returns nil and a bind failure surfaces later through
`Err()`; neither `Start` blocks for the lifetime of serving. -/
theorem C8_amended_start_error_reporting :
    (∀ parseOk bindOk, httpStartReturn parseOk bindOk = none) ∧
    (httpServeErr false = some "bind failed") ∧
    (∀ u k, otlpStartReturn u k false ≠ none) ∧
    (otlpStartReturn false true false = some "failed to listen") := by
  refine ⟨fun _ _ => rfl, rfl, fun u k => ?_, rfl⟩
  by_cases h : u ∧ k = false <;> simp [otlpStartReturn, h]

/-- Configuration of the inspector relevant to the HTTP path: whether the
emitter is the no-op one and the writer discards, plus the decode outcome
of each kind's unmarshaler (given the protobuf-vs-JSON choice and the body
bytes). -/
structure InspectorM where
  emitterIsNoop : Bool
  writerIsDiscard : Bool
  decodeTrace : Bool → List Nat → Bool
  decodeMetric : Bool → List Nat → Bool
  decodeLog : Bool → List Nat → Bool

/-- `Inspector.canWrite`: with a no-op emitter, write only when the writer
is not discarding; with a real emitter, always. -/
def canWrite (i : InspectorM) : Bool :=
  if i.emitterIsNoop then !i.writerIsDiscard else true

/-- An inbound HTTP request: path, content type, and the bytes a reader of
its body would yield. -/
structure HttpRequest where
  path : String
  contentType : String
  body : List Nat
deriving DecidableEq, Repr

/-- Observable actions of `InspectHttpRequest` on a request. -/
inductive HttpAction where
  | readBody
  | restoreBody (bytes : List Nat)
  | inspected (t : TelemetryType)
deriving DecidableEq, Repr

/-- The three known export paths of the HTTP front end. -/
def knownPath (p : String) : Bool :=
  p == "/v1/traces" || p == "/v1/metrics" || p == "/v1/logs"

/-- `strings.Contains(contentType, "application/x-protobuf")`. -/
def isProtoContent (ct : String) : Bool :=
  decide ("application/x-protobuf".toList <:+: ct.toList)

/-- `Inspector.InspectHttpRequest`: bail out if it cannot write or the path
is not one of the three known export paths (the body is then never read);
otherwise read the whole body, restore the request's body to a fresh reader
over the very same bytes, pick the unmarshaler from the content type, and
inspect the decoded object when decoding succeeds. Returns the request as
passed onward plus the actions taken. -/
def inspectHttpRequest (i : InspectorM) (req : HttpRequest) :
    HttpRequest × List HttpAction :=
  if canWrite i = false then (req, [])
  else if knownPath req.path = false then (req, [])
  else
    let isProto := isProtoContent req.contentType
    let body := req.body
    let req1 := { req with body := body }
    let acts := [HttpAction.readBody, .restoreBody body]
    if req.path == "/v1/traces" then
      (req1, acts ++ if i.decodeTrace isProto body then [.inspected .trace] else [])
    else if req.path == "/v1/metrics" then
      (req1, acts ++ if i.decodeMetric isProto body then [.inspected .metric] else [])
    else
      (req1, acts ++ if i.decodeLog isProto body then [.inspected .log] else [])

lemma inspectHttpRequest_fst (i : InspectorM) (req : HttpRequest) :
    (inspectHttpRequest i req).1 = req := by
  unfold inspectHttpRequest
  split_ifs <;> rfl

/-- C9: the request passed onward to the reverse proxy carries the original
body byte-for-byte (indeed the whole request is unchanged), every body ever
restored is the original one, and a request to an unrecognized path is
passed through with no inspection at all — its body is never read. -/
theorem C9_inspection_preserves_forwarded_body (i : InspectorM) (req : HttpRequest) :
    (inspectHttpRequest i req).1.body = req.body ∧
    (inspectHttpRequest i req).1 = req ∧
    (knownPath req.path = false → (inspectHttpRequest i req).2 = []) ∧
    (∀ b, HttpAction.restoreBody b ∈ (inspectHttpRequest i req).2 → b = req.body) := by
  refine ⟨by rw [inspectHttpRequest_fst], inspectHttpRequest_fst i req,
    fun hk => by simp [inspectHttpRequest, hk], fun b hb => ?_⟩
  by_cases hw : canWrite i = false
  · simp [inspectHttpRequest, hw] at hb
  · by_cases hk : knownPath req.path = false
    · simp [inspectHttpRequest, hw, hk] at hb
    · by_cases h1 : req.path == "/v1/traces"
      · by_cases hd : i.decodeTrace (isProtoContent req.contentType) req.body = true <;>
          simp [inspectHttpRequest, hw, hk, h1, hd] at hb <;> exact hb
      · by_cases h2 : req.path == "/v1/metrics"
        · by_cases hd : i.decodeMetric (isProtoContent req.contentType) req.body = true <;>
            simp [inspectHttpRequest, hw, hk, h1, h2, hd] at hb <;> exact hb
        · by_cases hd : i.decodeLog (isProtoContent req.contentType) req.body = true <;>
            simp [inspectHttpRequest, hw, hk, h1, h2, hd] at hb <;> exact hb

/-- Inspector used by the C9 witness: a real (non-noop) emitter and
decoders that always succeed. -/
def demoInspector : InspectorM :=
  { emitterIsNoop := false
    writerIsDiscard := true
    decodeTrace := fun _ _ => true
    decodeMetric := fun _ _ => true
    decodeLog := fun _ _ => true }

/-- A protobuf trace export request for the C9 witness. -/
def demoReqTrace : HttpRequest :=
  { path := "/v1/traces", contentType := "application/x-protobuf", body := [1, 2] }

/-- A request to an unrecognized path for the C9 witness. -/
def demoReqOther : HttpRequest :=
  { path := "/healthz", contentType := "", body := [9] }

/-- Witness for C9 at a concrete inspected request and a concrete
pass-through request. -/
theorem C9_inspection_preserves_forwarded_body_witness :
    (inspectHttpRequest demoInspector demoReqTrace).1.body = demoReqTrace.body ∧
    (inspectHttpRequest demoInspector demoReqOther).2 = [] :=
  ⟨(C9_inspection_preserves_forwarded_body demoInspector demoReqTrace).1,
   (C9_inspection_preserves_forwarded_body demoInspector demoReqOther).2.2.1 (by rfl)⟩

end OtelRelay
